import Mathlib

/-!
Verification of the Readiness-Gating and Iteration-Control subsystem
(agent-skills repository) against its design specification.

The development shallowly embeds the decision logic of:
  * the loop stop hook (Exit Guard), a bash Stop hook that blocks session
    termination while a loop-mode feature is unfinished;
  * the structural readiness scorer `score-spec.ts` (Track A);
  * the semantic sufficiency check `check-semantic.ts` (Track B);
  * the spec write guard `guard-writes.sh` (Spec Lock Guard).

Strings are modelled as `List Char`; filesystem reads are modelled by
passing the parsed record / file contents as explicit inputs.  Where the
source applies a JavaScript regular expression whose full semantics we do
not re-implement (section-heading detection and similar), the outcome of
that one test is taken as an input Boolean field, named after the test;
string-level operations that are plain substring / line-prefix scans
(`String.prototype.includes`, the `^- \[ \]` checklist count, the bash
`=~` spec-path pattern) are embedded exactly.
-/

namespace AgentSkills

/-! ## Exit Guard: the loop stop hook

Embeds the per-feature frontmatter fields that the hook greps out of
`progress.md` and the hook's decision.  Exit code 0 allows the session to
stop, exit code 2 blocks it. -/

/-- Frontmatter of one `.works/spec/<feature>/progress.md`, as parsed by the
stop hook (`mode:`, `status:`, `iteration:`, `max_iterations:`,
`last_verification_status:`). -/
structure ProgressRecord where
  mode : String
  status : String
  iteration : Nat
  max_iterations : Nat
  last_verification_status : String
deriving DecidableEq

/-- The `LOOP_FEATURES` filter: a feature participates in the stop check
when `mode == loop` and `status` is neither `completed` nor `canceled`. -/
def isActiveLoop (f : ProgressRecord) : Bool :=
  f.mode == "loop" && f.status != "completed" && f.status != "canceled"

/-- Per-feature stop condition of the hook: stop is allowed for this
feature when `status == done` with `last_verification_status == pass`, or
when `iteration >= max_iterations`. -/
def stopConditionMet (f : ProgressRecord) : Bool :=
  (f.status == "done" && f.last_verification_status == "pass")
    || (f.max_iterations ≤ f.iteration)

/-- The hook's scan over the active loop features: it exits 2 at the first
feature whose stop condition fails, and 0 after the loop otherwise. -/
def loopStopScan : List ProgressRecord → Nat
  | [] => 0
  | f :: rest => if stopConditionMet f then loopStopScan rest else 2

/-- Exit code of the stop hook given the parsed progress records of all
features found under `.works/spec`. -/
def loopStopHook (fs : List ProgressRecord) : Nat :=
  loopStopScan (fs.filter isActiveLoop)

theorem loopStopScan_eq_zero_iff (l : List ProgressRecord) :
    loopStopScan l = 0 ↔ ∀ f ∈ l, stopConditionMet f = true := by
  induction l with
  | nil => simp [loopStopScan]
  | cons f rest ih =>
    by_cases h : stopConditionMet f = true
    · simp [loopStopScan, h, ih]
    · simp [loopStopScan, h]

theorem loopStopScan_eq_two (l : List ProgressRecord)
    (h : ¬ ∀ f ∈ l, stopConditionMet f = true) : loopStopScan l = 2 := by
  induction l with
  | nil => simp at h
  | cons f rest ih =>
    by_cases hf : stopConditionMet f = true
    · simp only [loopStopScan, hf, if_true]
      refine ih ?_
      intro hall
      exact h (by
        intro g hg
        rcases List.mem_cons.mp hg with rfl | hg2
        · exact hf
        · exact hall g hg2)
    · simp [loopStopScan, hf]

theorem loopStopHook_eq_two_of_blocking (fs : List AgentSkills.ProgressRecord)
    (f : AgentSkills.ProgressRecord) (hmem : f ∈ fs)
    (hact : AgentSkills.isActiveLoop f = true)
    (hstop : AgentSkills.stopConditionMet f = false) :
    AgentSkills.loopStopHook fs = 2 := by
  apply AgentSkills.loopStopScan_eq_two
  intro hall
  have := hall f (List.mem_filter.mpr ⟨hmem, hact⟩)
  rw [hstop] at this
  exact Bool.false_ne_true this

/-- C1 (counterexample): the claim says the Exit Guard allows termination
for every loop feature whose state is terminal, in particular `blocked`.
The code disagrees: a loop feature with `status: blocked` and
`iteration < max_iterations` passes the `LOOP_FEATURES` filter (only
`completed` and `canceled` are excluded) and fails both stop conditions,
so the hook exits 2 (block), not 0 (allow). -/
theorem exitGuard_blocked_refuses :
    AgentSkills.loopStopHook
      [⟨"loop", "blocked", 0, 20, ""⟩] = 2 := by decide

/-- C1 (amended): the stop hook allows session termination iff every
feature that passes the `LOOP_FEATURES` filter (mode `loop`, status not
`completed` and not `canceled`) meets a stop condition: `status = done`
with a passing verification, or `iteration ≥ max_iterations`.  In
particular a `canceled` feature never blocks exit, while a `blocked` or
`done`-without-pass feature keeps blocking exit until the iteration
ceiling is reached. -/
theorem exitGuard_allow_characterization (fs : List AgentSkills.ProgressRecord) :
    AgentSkills.loopStopHook fs = 0 ↔
      ∀ f ∈ fs, AgentSkills.isActiveLoop f = true →
        AgentSkills.stopConditionMet f = true := by
  unfold AgentSkills.loopStopHook
  rw [AgentSkills.loopStopScan_eq_zero_iff]
  constructor
  · intro h f hf hact
    exact h f (List.mem_filter.mpr ⟨hf, hact⟩)
  · intro h f hf
    rcases List.mem_filter.mp hf with ⟨hmem, hact⟩
    exact h f hmem hact

/-- C2 (counterexample): the claim says the Exit Guard refuses termination
whenever a loop feature is in `collecting`, `implementing` or `fixing`,
regardless of any other field including the iteration count.  The code
disagrees: once `iteration >= max_iterations` the hook allows the stop
(timeout) even though the feature is still `implementing`. -/
theorem exitGuard_maxIterations_allows :
    AgentSkills.loopStopHook
      [⟨"loop", "implementing", 20, 20, ""⟩] = 0 := by decide

/-- C2 (amended): while a loop feature is in a working state
(`collecting`, `implementing` or `fixing`) and its iteration count is
still below `max_iterations`, the stop hook refuses termination
(exit code 2). -/
theorem exitGuard_refuses_while_working (fs : List AgentSkills.ProgressRecord)
    (f : AgentSkills.ProgressRecord) (hmem : f ∈ fs)
    (hmode : f.mode = "loop")
    (hstatus : f.status = "collecting" ∨ f.status = "implementing" ∨
      f.status = "fixing")
    (hiter : f.iteration < f.max_iterations) :
    AgentSkills.loopStopHook fs = 2 := by
  apply loopStopHook_eq_two_of_blocking fs f hmem
  · unfold AgentSkills.isActiveLoop
    rcases hstatus with h | h | h <;> simp [hmode, h]
  · unfold AgentSkills.stopConditionMet
    have h2 : ¬ (f.max_iterations ≤ f.iteration) := Nat.not_le.mpr hiter
    rcases hstatus with h | h | h <;> simp [h, h2]

/-- Witness for the amended C2 theorem at a concrete record. -/
theorem exitGuard_refuses_while_working_witness :
    AgentSkills.loopStopHook [⟨"loop", "fixing", 3, 20, "fail"⟩] = 2 :=
  exitGuard_refuses_while_working _ ⟨"loop", "fixing", 3, 20, "fail"⟩
    (List.mem_singleton.mpr rfl) rfl (Or.inr (Or.inr rfl)) (by decide)

/-! ## Structural Scorer (Track A, `score-spec.ts`)

The scorer reads `contracts.md` and `tasks.md`, runs a fixed catalogue of
checks, applies penalties and writes a `ScoreResult`.  Plain substring
scans are embedded exactly on `List Char`; each JavaScript-regex test is
carried as a named Boolean input field of `SpecDocs`. -/

/-- JavaScript `String.prototype.includes`: does `needle` occur as a
contiguous substring of `hay`? -/
def containsSub (needle : List Char) : List Char → Bool
  | [] => needle.isEmpty
  | c :: t => needle.isPrefixOf (c :: t) || containsSub needle t

/-- The placeholder token list of `hasPlaceholders`. -/
def placeholderTokens : List (List Char) :=
  [("TBD").toList, ("TODO").toList, ("???").toList, ("[later]").toList]

/-- Embeds `hasPlaceholders(content)`: the placeholder tokens that occur in
`content`, in catalogue order.  Each token is reported at most once no
matter how often it occurs (`content.includes(placeholder)`). -/
def hasPlaceholders (content : List Char) : List (List Char) :=
  placeholderTokens.filter (fun p => containsSub p content)

/-- Number of occurrences of `needle` in `hay` (one per start position).
Used only to state the per-occurrence reading of the placeholder
penalty; the source never computes this. -/
def countOccurrences (needle : List Char) : List Char → Nat
  | [] => 0
  | c :: t =>
    (if needle.isPrefixOf (c :: t) then 1 else 0) + countOccurrences needle t

/-- Total occurrences of all four placeholder tokens in `content`. -/
def totalPlaceholderOccurrences (content : List Char) : Nat :=
  (placeholderTokens.map (fun p => countOccurrences p content)).sum

/-- Split on newline characters, as the JavaScript multiline anchor `^`
sees line starts. -/
def splitOnNl : List Char → List (List Char)
  | [] => [[]]
  | c :: t =>
    if c = '\n' then [] :: splitOnNl t
    else
      match splitOnNl t with
      | [] => [[c]]
      | l :: ls => (c :: l) :: ls

/-- Embeds the checklist count `countMatches(tasksContent, ...)`: the number of lines of the
tasks document that start with the five characters `- [ ]`. -/
def checklistCount (tasks : List Char) : Nat :=
  ((splitOnNl tasks).filter (fun l => (("- [ ]").toList).isPrefixOf l)).length

/-- Input documents plus the outcomes of the scorer's regex tests.
`contracts`/`tasks` are the raw file contents; every other field is the
Boolean result of the identically-commented JavaScript test, recorded so
that the point / penalty / gap logic can be embedded exactly. -/
structure SpecDocs where
  contracts : List Char
  tasks : List Char
  /-- Outcome of the test `hasSection(contractsContent, 'Goal', 'Purpose', 'Objective')`. -/
  hasGoalSection : Bool
  /-- Outcome of the test `hasSection(contractsContent, 'Scope', 'What.*Included')`. -/
  hasScopeSection : Bool
  /-- Outcome of the test for a Non-Goals / Out of Scope / Not Included heading. -/
  hasNonGoalsSection : Bool
  /-- Outcome of the test for an Interface / API / Endpoint / Contract heading. -/
  hasInterfaceSection : Bool
  /-- Outcome of the test for a Data Model / Schema / Type heading. -/
  hasDataModelSection : Bool
  /-- Outcome of `/given|when|then/gi.test(tasksContent)` or the code-fence test. -/
  hasGWT : Bool
  /-- the type-definition regex over `contractsContent` -/
  hasTypeDefinitions : Bool
  /-- Outcome of the test for an Error / Exception / Failure heading. -/
  hasErrorSection : Bool
  /-- Non-Goals section extracted and its trimmed body longer than 50 -/
  nonGoalsNonEmpty : Bool
  /-- Outcome of the performance / security / scalability keyword test. -/
  hasRequirements : Bool
  /-- Outcome of the compatibility / version / migration keyword test. -/
  hasCompatibility : Bool
  /-- the regression-test-command regex over tasks or contracts -/
  hasTestCommand : Bool
  /-- the build-command regex over tasks or contracts -/
  hasBuildCommands : Bool
  /-- Outcome of the test for an Open Questions / Questions / Unresolved heading. -/
  hasOpenQuestionsSection : Bool
  /-- Open-Questions section extracted and its trimmed body longer than 20 -/
  openQuestionsNonTrivial : Bool
  /-- a How-to-Verify / Verification / Testing / Test Plan section exists
  in contracts or tasks -/
  hasVerifySection : Bool
deriving DecidableEq

/-- An entry of `result.penalties`. -/
structure Penalty where
  reason : String
  points : Int
deriving DecidableEq

/-- An entry of `result.gaps`. -/
structure Gap where
  category : String
  description : String
  blocking : Bool
deriving DecidableEq

/-- The `result.breakdown` record.  The first field is named `structure` in the
source; `structure` is a Lean keyword, hence the underscore. -/
structure ScoreBreakdown where
  structure_ : Int
  testability : Int
  interfaces : Int
  constraints : Int
  verification : Int
deriving DecidableEq

/-- The `ScoreResult` written to `score.json`. -/
structure ScoreResult where
  total : Int
  breakdown : ScoreBreakdown
  penalties : List Penalty
  gaps : List Gap
  last_updated : String
deriving DecidableEq

/-- A single `if (test) score += pts` check: full value on success, zero
otherwise. -/
def sectionPoints (b : Bool) (pts : Int) : Int := if b then pts else 0

/-- Structure category (25 pts): five section checks at 5 pts each. -/
def structureScore (d : SpecDocs) : Int :=
  sectionPoints d.hasGoalSection 5 + sectionPoints d.hasScopeSection 5 +
    sectionPoints d.hasNonGoalsSection 5 + sectionPoints d.hasInterfaceSection 5 +
    sectionPoints d.hasDataModelSection 5

/-- Gaps pushed by the structure checks, in source order. -/
def structureGaps (d : SpecDocs) : List Gap :=
  (if d.hasGoalSection then [] else
    [⟨"structure", "Missing Goal/Purpose/Objective section in contracts.md", true⟩]) ++
  (if d.hasScopeSection then [] else
    [⟨"structure", "Missing Scope section in contracts.md", true⟩]) ++
  (if d.hasNonGoalsSection then [] else
    [⟨"structure", "Missing Non-Goals/Out of Scope section", false⟩]) ++
  (if d.hasInterfaceSection then [] else
    [⟨"structure", "Missing Interface/API/Contract definitions", true⟩]) ++
  (if d.hasDataModelSection then [] else
    [⟨"structure", "Missing Data Model/Schema/Type definitions", false⟩])

/-- The checklist tier of the testability category: 10 pts for three or
more `- [ ]` items, 5 pts for one or two, 0 otherwise. -/
def checklistPoints (n : Nat) : Int :=
  if n ≥ 3 then 10 else if n > 0 then 5 else 0

/-- The Given/When/Then tier: 15 pts on success, 5 pts otherwise. -/
def gwtPoints (b : Bool) : Int := if b then 15 else 5

/-- Testability category (25 pts). -/
def testabilityScore (d : SpecDocs) : Int :=
  checklistPoints (checklistCount d.tasks) + gwtPoints d.hasGWT

/-- Gaps pushed by the testability checks, in source order. -/
def testabilityGaps (d : SpecDocs) : List Gap :=
  (if checklistCount d.tasks ≥ 3 then []
   else if checklistCount d.tasks > 0 then
    [⟨"testability",
      "Only " ++ toString (checklistCount d.tasks) ++
        " checklist items found. Need at least 3 concrete acceptance criteria.",
      false⟩]
   else
    [⟨"testability",
      "No checklist items (- [ ]) found in tasks.md. Acceptance criteria must be actionable.",
      true⟩]) ++
  (if d.hasGWT then [] else
    [⟨"testability",
      "Acceptance criteria lack executable format (Given/When/Then or code examples)",
      false⟩])

/-- Interfaces category (15 pts). -/
def interfacesScore (d : SpecDocs) : Int :=
  sectionPoints d.hasTypeDefinitions 10 + sectionPoints d.hasErrorSection 5

/-- Gaps pushed by the interfaces checks, in source order. -/
def interfacesGaps (d : SpecDocs) : List Gap :=
  (if d.hasTypeDefinitions then [] else
    [⟨"interfaces",
      "No type definitions found (TypeScript/JSON schemas). API contracts need concrete types.",
      true⟩]) ++
  (if d.hasErrorSection then [] else
    [⟨"interfaces", "Error handling not specified", false⟩])

/-- Constraints category (15 pts). -/
def constraintsScore (d : SpecDocs) : Int :=
  sectionPoints d.nonGoalsNonEmpty 5 + sectionPoints d.hasRequirements 5 +
    sectionPoints d.hasCompatibility 5

/-- Gaps pushed by the constraints checks, in source order. -/
def constraintsGaps (d : SpecDocs) : List Gap :=
  (if d.nonGoalsNonEmpty then [] else
    [⟨"constraints",
      "Non-Goals section is empty or too brief. Need explicit boundaries.", false⟩]) ++
  (if d.hasRequirements then [] else
    [⟨"constraints",
      "No performance/security/scalability requirements mentioned", false⟩]) ++
  (if d.hasCompatibility then [] else
    [⟨"constraints",
      "No compatibility/migration/versioning constraints mentioned", false⟩])

/-- Verification category (20 pts). -/
def verificationScore (d : SpecDocs) : Int :=
  sectionPoints d.hasTestCommand 10 + sectionPoints d.hasBuildCommands 10

/-- Gaps pushed by the verification checks, in source order. -/
def verificationGaps (d : SpecDocs) : List Gap :=
  (if d.hasTestCommand then [] else
    [⟨"verification",
      "No regression test command specified (e.g., `bun run test`)", true⟩]) ++
  (if d.hasBuildCommands then [] else
    [⟨"verification", "No build/check commands specified", false⟩])

/-- The placeholder penalty entry: one entry of
`placeholders.length * 5` points when any placeholder token occurs in
`contractsContent + tasksContent`, nothing otherwise. -/
def placeholderPenalties (content : List Char) : List Penalty :=
  let ph := hasPlaceholders content
  if ph.length > 0 then
    [⟨"Found " ++ toString ph.length ++ " placeholder(s): " ++
        String.mk (List.intercalate ((", ").toList) ph),
      (ph.length : Int) * 5⟩]
  else []

/-- The Open-Questions penalty (20 pts) when the section exists and its
body is non-trivial. -/
def openQuestionsPenalties (d : SpecDocs) : List Penalty :=
  if d.hasOpenQuestionsSection && d.openQuestionsNonTrivial then
    [⟨"Open Questions section contains blocking items", 20⟩]
  else []

/-- The missing-How-to-Verify penalty (15 pts). -/
def verifySectionPenalties (d : SpecDocs) : List Penalty :=
  if d.hasVerifySection then []
  else [⟨"No \"How to Verify\" or \"Test Plan\" section found", 15⟩]

/-- Sum of the `points` of a penalty list (the `reduce` in the source). -/
def penaltySum (l : List Penalty) : Int := (l.map Penalty.points).sum

/-- The full scoring pipeline of `score-spec.ts`.  `now` is the value of
`new Date().toISOString()` at the time of the run. -/
def scoreSpec (d : SpecDocs) (now : String) : ScoreResult :=
  let breakdown : ScoreBreakdown :=
    ⟨structureScore d, testabilityScore d, interfacesScore d,
      constraintsScore d, verificationScore d⟩
  let penalties : List Penalty :=
    placeholderPenalties (d.contracts ++ d.tasks) ++
      openQuestionsPenalties d ++ verifySectionPenalties d
  let gaps : List Gap :=
    structureGaps d ++ testabilityGaps d ++ interfacesGaps d ++
      constraintsGaps d ++ verificationGaps d
  let penaltyTotal : Int := penaltySum penalties
  let rawScore : Int :=
    breakdown.structure_ + breakdown.testability + breakdown.interfaces +
      breakdown.constraints + breakdown.verification
  { total := max 0 (rawScore - penaltyTotal)
    breakdown := breakdown
    penalties := penalties
    gaps := gaps
    last_updated := now }

/-- Sum of the five category sub-scores of a report
(`Object.values(result.breakdown).reduce(...)`). -/
def rawScoreOf (r : ScoreResult) : Int :=
  r.breakdown.structure_ + r.breakdown.testability + r.breakdown.interfaces +
    r.breakdown.constraints + r.breakdown.verification

theorem penaltySum_append (a b : List Penalty) :
    penaltySum (a ++ b) = penaltySum a + penaltySum b := by
  simp [penaltySum]

theorem hasPlaceholders_length_le (content : List Char) :
    (hasPlaceholders content).length ≤ 4 := by
  simpa [hasPlaceholders, placeholderTokens] using
    List.length_filter_le (fun p => containsSub p content) placeholderTokens

theorem placeholderPenalties_sum (content : List Char) :
    penaltySum (placeholderPenalties content) =
      ((hasPlaceholders content).length : Int) * 5 := by
  by_cases h : (hasPlaceholders content).length > 0
  · simp [placeholderPenalties, penaltySum, h]
  · simp only [Nat.pos_iff_ne_zero, ne_eq, not_not] at h
    simp [placeholderPenalties, penaltySum, h]

theorem placeholderPenalties_sum_nonneg (content : List Char) :
    0 ≤ penaltySum (placeholderPenalties content) := by
  rw [placeholderPenalties_sum]
  positivity

theorem openQuestionsPenalties_sum_nonneg (d : SpecDocs) :
    0 ≤ penaltySum (openQuestionsPenalties d) := by
  unfold openQuestionsPenalties
  split <;> simp [penaltySum]

theorem verifySectionPenalties_sum_nonneg (d : SpecDocs) :
    0 ≤ penaltySum (verifySectionPenalties d) := by
  unfold verifySectionPenalties
  split <;> simp [penaltySum]

theorem structureScore_nonneg (d : SpecDocs) : 0 ≤ structureScore d := by
  unfold structureScore sectionPoints
  split_ifs <;> omega

theorem checklistPoints_nonneg (n : Nat) : 0 ≤ checklistPoints n := by
  unfold checklistPoints
  split_ifs <;> omega

theorem gwtPoints_nonneg (b : Bool) : 0 ≤ gwtPoints b := by
  cases b <;> simp [gwtPoints]

theorem testabilityScore_nonneg (d : SpecDocs) : 0 ≤ testabilityScore d :=
  add_nonneg (checklistPoints_nonneg _) (gwtPoints_nonneg _)

theorem interfacesScore_nonneg (d : SpecDocs) : 0 ≤ interfacesScore d := by
  unfold interfacesScore sectionPoints
  split_ifs <;> omega

theorem constraintsScore_nonneg (d : SpecDocs) : 0 ≤ constraintsScore d := by
  unfold constraintsScore sectionPoints
  split_ifs <;> omega

theorem verificationScore_nonneg (d : SpecDocs) : 0 ≤ verificationScore d := by
  unfold verificationScore sectionPoints
  split_ifs <;> omega

/-- C3 (counterexample): the claim says the placeholder penalty is a fixed
amount per occurrence with unbounded accumulation.  The code disagrees:
`hasPlaceholders` reports each token kind at most once
(`content.includes`), so a document with two occurrences of `TBD` incurs
a single 5-point deduction, not 2 × 5. -/
theorem placeholderPenalty_not_per_occurrence :
    totalPlaceholderOccurrences (("TBD TBD").toList) = 2 ∧
    penaltySum (placeholderPenalties (("TBD TBD").toList)) = 5 ∧
    penaltySum (placeholderPenalties (("TBD TBD").toList)) ≠ 2 * 5 := by
  decide

/-- C3 (amended): the placeholder penalty is 5 points per distinct
placeholder token kind present in the concatenated documents (of the four
kinds `TBD`, `TODO`, `???`, `[later]`), independent of how often each
occurs; it is therefore bounded by 20 points per document pair. -/
theorem placeholderPenalty_per_kind_bounded (content : List Char) :
    penaltySum (placeholderPenalties content) =
      ((hasPlaceholders content).length : Int) * 5 ∧
    penaltySum (placeholderPenalties content) ≤ 20 := by
  refine ⟨placeholderPenalties_sum content, ?_⟩
  rw [placeholderPenalties_sum]
  have h := hasPlaceholders_length_le content
  omega

/-- C4 (counterexample): the claim says two runs on identical input text
produce reports with every field equal.  The code disagrees: the
`ScoreResult` includes `last_updated: new Date().toISOString()`, so two
runs at different instants produce unequal reports. -/
theorem scoreSpec_not_fully_deterministic :
    scoreSpec
        ⟨[], [], false, false, false, false, false, false, false, false,
          false, false, false, false, false, false, false, false⟩
        "2024-01-01T00:00:00.000Z" ≠
      scoreSpec
        ⟨[], [], false, false, false, false, false, false, false, false,
          false, false, false, false, false, false, false, false⟩
        "2024-01-02T00:00:00.000Z" := by
  decide

/-- C4 (amended): scoring is deterministic in every field except the
`last_updated` timestamp: two runs on identical input text produce the
same `total`, `breakdown`, `penalties` and `gaps`; only `last_updated`
(the wall-clock instant of the run) can differ. -/
theorem scoreSpec_deterministic_up_to_timestamp (d : SpecDocs)
    (t1 t2 : String) :
    (scoreSpec d t1).total = (scoreSpec d t2).total ∧
    (scoreSpec d t1).breakdown = (scoreSpec d t2).breakdown ∧
    (scoreSpec d t1).penalties = (scoreSpec d t2).penalties ∧
    (scoreSpec d t1).gaps = (scoreSpec d t2).gaps :=
  ⟨rfl, rfl, rfl, rfl⟩

/-- C7 (counterexample): the claim says every check contributes its fixed
point value on success and zero otherwise.  The code disagrees: with one
checklist item the checklist check awards 5 of its 10 points, and the
Given/When/Then check awards 5 (not 0) on failure. -/
theorem checklist_partial_credit :
    checklistCount (("- [ ] one task").toList) = 1 ∧
    checklistPoints (checklistCount (("- [ ] one task").toList)) = 5 ∧
    ¬ (checklistPoints (checklistCount (("- [ ] one task").toList)) = 0 ∨
        checklistPoints (checklistCount (("- [ ] one task").toList)) = 10) ∧
    gwtPoints false = 5 := by
  decide

/-- C7 (amended): every check of the catalogue is all-or-nothing except
two: each plain section / pattern check contributes its fixed value or 0
(`sectionPoints`), while the checklist check has an intermediate tier of
5 of its 10 points exactly when 1 or 2 checklist items are present, and
the Given/When/Then check contributes a reduced 5 of its 15 points on
failure rather than 0. -/
theorem checks_all_or_nothing_except_two (d : SpecDocs) :
    (∀ (b : Bool) (pts : Int),
      sectionPoints b pts = pts ∨ sectionPoints b pts = 0) ∧
    testabilityScore d =
      checklistPoints (checklistCount d.tasks) + gwtPoints d.hasGWT ∧
    (checklistPoints (checklistCount d.tasks) = 0 ∨
      checklistPoints (checklistCount d.tasks) = 5 ∨
      checklistPoints (checklistCount d.tasks) = 10) ∧
    (checklistPoints (checklistCount d.tasks) = 5 ↔
      1 ≤ checklistCount d.tasks ∧ checklistCount d.tasks ≤ 2) ∧
    (gwtPoints d.hasGWT = 15 ∨ gwtPoints d.hasGWT = 5) ∧
    (d.hasGWT = false → gwtPoints d.hasGWT = 5) := by
  refine ⟨?_, rfl, ?_, ?_, ?_, ?_⟩
  · intro b pts
    cases b <;> simp [sectionPoints]
  · unfold checklistPoints
    split_ifs <;> simp
  · unfold checklistPoints
    split_ifs with h1 h2
    · simp only [show ¬ ((10 : Int) = 5) by decide, false_iff]
      omega
    · simp only [show ((5 : Int) = 5) by decide, true_iff]
      omega
    · simp only [show ¬ ((0 : Int) = 5) by decide, false_iff]
      omega
  · cases h : d.hasGWT <;> simp [gwtPoints]
  · intro h
    simp [gwtPoints, h]

/-- C8 (confirmed): for every input the final total equals
`max 0 (sum of the five category scores − sum of all penalty points)`;
it is never negative and never exceeds the unpenalized category sum. -/
theorem total_clamped_between_zero_and_raw (d : SpecDocs) (now : String) :
    (scoreSpec d now).total =
      max 0 (rawScoreOf (scoreSpec d now) -
        penaltySum (scoreSpec d now).penalties) ∧
    0 ≤ (scoreSpec d now).total ∧
    (scoreSpec d now).total ≤ rawScoreOf (scoreSpec d now) := by
  have hraw : 0 ≤ rawScoreOf (scoreSpec d now) := by
    show (0 : Int) ≤ structureScore d + testabilityScore d +
      interfacesScore d + constraintsScore d + verificationScore d
    have h1 := structureScore_nonneg d
    have h2 := testabilityScore_nonneg d
    have h3 := interfacesScore_nonneg d
    have h4 := constraintsScore_nonneg d
    have h5 := verificationScore_nonneg d
    omega
  have hpen : 0 ≤ penaltySum (scoreSpec d now).penalties := by
    show (0 : Int) ≤ penaltySum
      (placeholderPenalties (d.contracts ++ d.tasks) ++
        openQuestionsPenalties d ++ verifySectionPenalties d)
    rw [penaltySum_append, penaltySum_append]
    have h1 := placeholderPenalties_sum_nonneg (d.contracts ++ d.tasks)
    have h2 := openQuestionsPenalties_sum_nonneg d
    have h3 := verifySectionPenalties_sum_nonneg d
    omega
  refine ⟨rfl, ?_, ?_⟩
  · exact le_max_left 0 _
  · show max 0 (rawScoreOf (scoreSpec d now) -
      penaltySum (scoreSpec d now).penalties) ≤ rawScoreOf (scoreSpec d now)
    exact max_le hraw (by omega)

/-! ## Semantic Judge consumer (Track B, `check-semantic.ts`)

Embeds the control flow up to the point where the script calls the
external model: the 5-minute result cache, the missing-spec-file errors,
and the degraded-mode fallback used when `ANTHROPIC_API_KEY` is unset.
Filesystem state is passed in explicitly as a `SemEnv`. -/

/-- The `SemanticCheck` record written to `semantic-check.json` (the
fields the embedded control flow constructs). -/
structure SemanticCheck where
  ok : Bool
  confidence : Int
  reason : String
  evidence : List (String × String)
  gaps : List String
  last_updated : String
  skipped : Bool
deriving DecidableEq

/-- Cached `semantic-check.json`: its age in milliseconds
(`Date.now() - stats.mtimeMs`) and the `ok` field of its JSON content. -/
structure CacheEntry where
  ageMs : Nat
  ok : Bool
deriving DecidableEq

/-- Filesystem / environment state read by `check-semantic.ts`. -/
structure SemEnv where
  cache : Option CacheEntry
  contractsExists : Bool
  tasksExists : Bool
  contracts : List Char
  tasks : List Char
  readme : Option (List Char)
  apiKey : Option String
  /-- value of `new Date().toISOString()` during this run -/
  now : String
deriving DecidableEq

/-- Outcome of a `check-semantic.ts` run, up to the external model call:
either the cached verdict is replayed, a missing spec file aborts the
run, the degraded-mode fallback is written, or the script proceeds to
call the model on the file contents it has read. -/
inductive SemOutcome where
  | cachedExit (exitCode : Nat)
  | missingSpec (exitCode : Nat)
  | degraded (written : SemanticCheck) (exitCode : Nat)
  | callJudge (contracts tasks readme : List Char)
deriving DecidableEq

/-- Whether an outcome required reading `contracts.md` / `tasks.md`
(`readFileSync` is only reached after the cache and existence checks). -/
def readsSpecFiles : SemOutcome → Bool
  | .degraded _ _ => true
  | .callJudge _ _ _ => true
  | _ => false

/-- Cache time-to-live: `5 * 60 * 1000` milliseconds. -/
def CACHE_TTL_MS : Nat := 5 * 60 * 1000

/-- The degraded-mode fallback `SemanticCheck` written when the API key
is unavailable. -/
def fallbackResult (now : String) : SemanticCheck :=
  { ok := true
    confidence := 0
    reason := "Semantic check skipped - API key not available (degraded mode: Track A only)"
    evidence := []
    gaps := []
    last_updated := now
    skipped := true }

/-- Control flow of `check-semantic.ts` after the cache check: spec-file
existence checks, file reads, then the API-key branch. -/
def checkSemanticBody (e : SemEnv) : SemOutcome :=
  if !e.contractsExists then .missingSpec 1
  else if !e.tasksExists then .missingSpec 1
  else
    match e.apiKey with
    | none => .degraded (fallbackResult e.now) 0
    | some _ =>
      .callJudge e.contracts e.tasks (e.readme.getD [])

/-- Full control flow of `check-semantic.ts`: a cached result younger
than `CACHE_TTL_MS` is replayed with exit code `cached.ok ? 0 : 1`;
otherwise the body runs. -/
def checkSemantic (e : SemEnv) : SemOutcome :=
  match e.cache with
  | some c =>
    if c.ageMs < CACHE_TTL_MS then .cachedExit (if c.ok then 0 else 1)
    else checkSemanticBody e
  | none => checkSemanticBody e

/-- C6 (confirmed): when the Judge is unavailable (no API key) and no
fresh cached verdict short-circuits the run, the semantic check does not
fail closed: it writes the skipped fallback verdict (`ok = true`,
`skipped = true`) and exits 0, so the gate's pass condition reduces to
the Track A score alone. -/
theorem degradedMode_never_blocks (e : SemEnv)
    (hkey : e.apiKey = none)
    (hcache : ∀ c, e.cache = some c → CACHE_TTL_MS ≤ c.ageMs)
    (hc : e.contractsExists = true) (ht : e.tasksExists = true) :
    checkSemantic e = .degraded (fallbackResult e.now) 0 ∧
    (fallbackResult e.now).ok = true ∧
    (fallbackResult e.now).skipped = true := by
  refine ⟨?_, rfl, rfl⟩
  have hbody : checkSemanticBody e = .degraded (fallbackResult e.now) 0 := by
    unfold checkSemanticBody
    rw [hc, ht, hkey]
    rfl
  unfold checkSemantic
  cases hcase : e.cache with
  | none => exact hbody
  | some c =>
    have hage := hcache c hcase
    show (if c.ageMs < CACHE_TTL_MS then
        SemOutcome.cachedExit (if c.ok then 0 else 1)
      else checkSemanticBody e) = SemOutcome.degraded (fallbackResult e.now) 0
    rw [if_neg (Nat.not_lt.mpr hage)]
    exact hbody

/-- Witness for the C6 theorem at a concrete environment with no cache
file and no API key. -/
theorem degradedMode_never_blocks_witness :
    checkSemantic
        ⟨none, true, true, [], [], none, none, "2024-01-01T00:00:00.000Z"⟩ =
      .degraded (fallbackResult ("2024-01-01T00:00:00.000Z")) 0 :=
  (degradedMode_never_blocks
    ⟨none, true, true, [], [], none, none, "2024-01-01T00:00:00.000Z"⟩
    rfl (fun c hc => by cases hc) rfl rfl).1

/-- C10 (confirmed): whenever a `semantic-check.json` younger than five
minutes exists, the check replays the cached verdict with exit code
`ok ? 0 : 1` without reading the specification files — so a gate attempt
inside the window can observe a verdict computed before the latest edits
to `contracts.md` or `tasks.md` (the outcome is independent of the
current file contents). -/
theorem freshCache_replayed_without_reading (e : SemEnv) (c : CacheEntry)
    (hcache : e.cache = some c) (hfresh : c.ageMs < CACHE_TTL_MS) :
    checkSemantic e = .cachedExit (if c.ok then 0 else 1) ∧
    readsSpecFiles (checkSemantic e) = false := by
  have h : checkSemantic e = .cachedExit (if c.ok then 0 else 1) := by
    unfold checkSemantic
    rw [hcache]
    show (if c.ageMs < CACHE_TTL_MS then
        SemOutcome.cachedExit (if c.ok then 0 else 1)
      else checkSemanticBody e) = SemOutcome.cachedExit (if c.ok then 0 else 1)
    rw [if_pos hfresh]
  refine ⟨h, ?_⟩
  rw [h]
  cases c.ok <;> rfl

/-- Witness for the C10 theorem: a 1-minute-old failing cached verdict is
replayed (exit 1) even though the current documents differ from the ones
it was computed from. -/
theorem freshCache_replayed_witness :
    checkSemantic
        ⟨some ⟨60000, false⟩, true, true, ("edited").toList, [], none,
          some "key", "2024-01-01T00:00:00.000Z"⟩ =
      .cachedExit 1 ∧
    readsSpecFiles
        (checkSemantic
          ⟨some ⟨60000, false⟩, true, true, ("edited").toList, [], none,
            some "key", "2024-01-01T00:00:00.000Z"⟩) = false := by
  have h := freshCache_replayed_without_reading
    ⟨some ⟨60000, false⟩, true, true, ("edited").toList, [], none,
      some "key", "2024-01-01T00:00:00.000Z"⟩
    ⟨60000, false⟩ rfl (by decide)
  simpa using h

/-! ## Spec Lock Guard (`guard-writes.sh`)

Embeds the PreToolUse hook: tool-name filter, empty-path early exit, the
bash pattern `\.works/spec/([^/]+)/(contracts|tasks|README)\.md` (an
unanchored substring search whose capture group names the feature), and
the `spec.lock` existence check.  Exit code 0 allows the write, 2 blocks
it.  Lock-marker existence is passed in as a predicate on feature
names. -/

/-- Strip a literal leading pattern: `some rest` when `lead` is a prefix
of the input, `none` otherwise. -/
def stripLead : List Char → List Char → Option (List Char)
  | [], l => some l
  | _ :: _, [] => none
  | p :: ps, c :: cs => if p = c then stripLead ps cs else none

/-- Greedy `([^/]+)/` matching: the segment before the first `/` and the
remainder after it (`none` when no `/` occurs); the caller checks the
segment is non-empty. -/
def splitAtSlash : List Char → Option (List Char × List Char)
  | [] => none
  | c :: t =>
    if c = '/' then some ([], t)
    else
      match splitAtSlash t with
      | some (seg, rest) => some (c :: seg, rest)
      | none => none

/-- The alternation `(contracts|tasks|README)\.md` with no end anchor:
the remainder must start with one of the three artifact names. -/
def matchArtifact (l : List Char) : Bool :=
  (("contracts.md").toList).isPrefixOf l ||
    (("tasks.md").toList).isPrefixOf l ||
    (("README.md").toList).isPrefixOf l

/-- The literal head of the bash pattern, `\.works/spec/`. -/
def specMarker : List Char := (".works/spec/").toList

/-- Try the bash pattern at the head of `l`; on success return the
captured feature name (`BASH_REMATCH[1]`). -/
def specFeatureAt (l : List Char) : Option (List Char) :=
  match stripLead specMarker l with
  | none => none
  | some rest =>
    match splitAtSlash rest with
    | none => none
    | some (seg, r2) =>
      if !seg.isEmpty && matchArtifact r2 then some seg else none

/-- The unanchored `=~` search: the pattern is tried at every start
position, leftmost match first. -/
def firstSpecFeature : List Char → Option (List Char)
  | [] => none
  | c :: t =>
    match specFeatureAt (c :: t) with
    | some f => some f
    | none => firstSpecFeature t

/-- Exit code of `guard-writes.sh` given the hook's tool name, the target
file path, and which features currently have a `spec.lock` marker. -/
def guardWrites (toolName : String) (filePath : List Char)
    (lockExists : List Char → Bool) : Nat :=
  if toolName != "Write" && toolName != "Edit" then 0
  else if filePath.isEmpty then 0
  else
    match firstSpecFeature filePath with
    | some feat => if lockExists feat then 2 else 0
    | none => 0

theorem stripLead_append (p l : List Char) : stripLead p (p ++ l) = some l := by
  induction p with
  | nil => rfl
  | cons c t ih => simp [stripLead, ih]

theorem splitAtSlash_append (f b : List Char) (hs : ('/') ∉ f) :
    splitAtSlash (f ++ ('/') :: b) = some (f, b) := by
  induction f with
  | nil => simp [splitAtSlash]
  | cons c t ih =>
    have hc : c ≠ '/' := by
      intro h
      exact hs (by simp [h])
    have ht : ('/') ∉ t := fun h => hs (List.mem_cons_of_mem _ h)
    simp [splitAtSlash, hc, ih ht]

theorem specFeatureAt_construct (f b : List Char) (hf : f ≠ [])
    (hs : ('/') ∉ f) (hb : matchArtifact b = true) :
    specFeatureAt (specMarker ++ (f ++ ('/') :: b)) = some f := by
  unfold specFeatureAt
  rw [stripLead_append]
  show (match splitAtSlash (f ++ ('/') :: b) with
      | none => (none : Option (List Char))
      | some (seg, r2) =>
        if !seg.isEmpty && matchArtifact r2 then some seg else none) = some f
  rw [splitAtSlash_append f b hs]
  show (if !f.isEmpty && matchArtifact b then some f else none) = some f
  have he : f.isEmpty = false := by
    cases f with
    | nil => exact absurd rfl hf
    | cons c t => rfl
  simp [he, hb]

theorem specMarker_cons : specMarker = ('.') :: (("works/spec/").toList) := by
  decide

theorem firstSpecFeature_construct (f b : List Char) (hf : f ≠ [])
    (hs : ('/') ∉ f) (hb : matchArtifact b = true) :
    firstSpecFeature (specMarker ++ (f ++ ('/') :: b)) = some f := by
  have h := specFeatureAt_construct f b hf hs hb
  rw [specMarker_cons, List.cons_append] at h ⊢
  unfold firstSpecFeature
  rw [← List.cons_append, ← specMarker_cons] at h ⊢
  rw [h]

theorem guardWrites_write_edit (tool : String) (p : List Char)
    (locks : List Char → Bool) (f : List Char)
    (htool : tool = "Write" ∨ tool = "Edit")
    (hne : p.isEmpty = false) (hfeat : firstSpecFeature p = some f) :
    guardWrites tool p locks = if locks f then 2 else 0 := by
  have h1 : (tool != "Write" && tool != "Edit") = false := by
    rcases htool with rfl | rfl <;> decide
  simp [guardWrites, h1, hne, hfeat]

theorem guardWrites_no_match (tool : String) (p : List Char)
    (locks : List Char → Bool) (hfeat : firstSpecFeature p = none) :
    guardWrites tool p locks = 0 := by
  unfold guardWrites
  rw [hfeat]
  split_ifs <;> rfl

/-- C5 (confirmed): for a Write/Edit check on a specification artifact
`contracts.md`, `tasks.md` or `README.md` of feature `f` under
`.works/spec/f/`, the guard denies (exit 2) if and only if the
`spec.lock` marker exists for `f`: while the lock exists every such check
denies, and while it does not exist every such check allows (exit 0). -/
theorem specLockGuard_deny_iff_lock (tool : String) (f b : List Char)
    (locks : List Char → Bool)
    (htool : tool = "Write" ∨ tool = "Edit")
    (hf : f ≠ []) (hs : ('/') ∉ f)
    (hb : b = ("contracts.md").toList ∨ b = ("tasks.md").toList ∨
      b = ("README.md").toList) :
    guardWrites tool (specMarker ++ (f ++ ('/') :: b)) locks =
      if locks f then 2 else 0 := by
  have hart : matchArtifact b = true := by
    rcases hb with rfl | rfl | rfl <;> decide
  have hne : (specMarker ++ (f ++ ('/') :: b)).isEmpty = false := by
    rw [specMarker_cons, List.cons_append]
    rfl
  exact guardWrites_write_edit tool _ locks f htool hne
    (firstSpecFeature_construct f b hf hs hart)

/-- Witness for the C5 theorem: with the lock present for feature `demo`,
a Write to its `contracts.md` is denied; with no lock present, the same
check allows. -/
theorem specLockGuard_deny_iff_lock_witness :
    guardWrites "Write"
        (specMarker ++ (("demo").toList ++ ('/') :: ("contracts.md").toList))
        (fun g => g == ("demo").toList) = 2 ∧
    guardWrites "Write"
        (specMarker ++ (("demo").toList ++ ('/') :: ("contracts.md").toList))
        (fun _ => false) = 0 := by
  constructor
  · have h := specLockGuard_deny_iff_lock "Write" (("demo").toList)
      (("contracts.md").toList) (fun g => g == ("demo").toList)
      (Or.inl rfl) (by decide) (by decide) (Or.inl rfl)
    simpa using h
  · have h := specLockGuard_deny_iff_lock "Write" (("demo").toList)
      (("contracts.md").toList) (fun _ => false)
      (Or.inl rfl) (by decide) (by decide) (Or.inl rfl)
    simpa using h

/-- C9 (counterexample): the claim says every write to any file of a
locked feature other than the three artifacts is allowed.  The code
disagrees: the bash pattern has no end anchor, so a path that merely
extends an artifact name — here `contracts.md.bak` — still matches and is
denied while the lock exists. -/
theorem specLockGuard_denies_bak_file :
    guardWrites "Write"
        (specMarker ++ (("demo").toList ++ ('/') :: ("contracts.md.bak").toList))
        (fun g => g == ("demo").toList) = 2 := by
  decide

/-- C9 (amended): the guard intercepts only Write and Edit invocations
whose path contains a substring matching
`.works/spec/<feature>/(contracts|tasks|README).md` — unanchored at the
end, so paths extending an artifact name (e.g. `contracts.md.bak`) are
also intercepted.  Every other tool is allowed unconditionally, and every
path with no such substring is allowed even while a lock exists; in
particular `progress.md`, `qa.md` and the `spec.lock` marker itself are
never matched. -/
theorem specLockGuard_scope (tool : String) (p : List Char)
    (locks : List Char → Bool) :
    (tool ≠ "Write" → tool ≠ "Edit" → guardWrites tool p locks = 0) ∧
    (firstSpecFeature p = none → guardWrites tool p locks = 0) ∧
    firstSpecFeature
        (specMarker ++ (("demo").toList ++ ('/') :: ("progress.md").toList)) =
      none ∧
    firstSpecFeature
        (specMarker ++ (("demo").toList ++ ('/') :: ("qa.md").toList)) =
      none ∧
    firstSpecFeature
        (specMarker ++ (("demo").toList ++ ('/') :: ("spec.lock").toList)) =
      none ∧
    guardWrites "Edit"
        (specMarker ++ (("demo").toList ++ ('/') :: ("tasks.md.old").toList))
        (fun _ => true) = 2 := by
  refine ⟨?_, ?_, by decide, by decide, by decide, by decide⟩
  · intro h1 h2
    have h : (tool != "Write" && tool != "Edit") = true := by
      simp [h1, h2]
    simp [guardWrites, h]
  · exact guardWrites_no_match tool p locks

/-- Witness for the C9 theorem: a non-write tool is allowed, and a Write
to a locked feature's `progress.md` is allowed. -/
theorem specLockGuard_scope_witness :
    guardWrites "Bash" (("x").toList) (fun _ => true) = 0 ∧
    guardWrites "Write"
        (specMarker ++ (("demo").toList ++ ('/') :: ("progress.md").toList))
        (fun _ => true) = 0 := by
  constructor
  · exact (specLockGuard_scope "Bash" (("x").toList) (fun _ => true)).1
      (by decide) (by decide)
  · exact (specLockGuard_scope "Write" _ (fun _ => true)).2.1 (by decide)

end AgentSkills
